import Mathlib

/-!
Verification development for the RAG legal-document indexing system
(repository semenkulikov/RAG-project).

The Python sources are shallowly embedded as executable Lean definitions:

* data_processor.py           : LegalDocumentProcessor.process_all_pdfs and friends
* simple_vector_db.py         : SimpleVectorDatabase (sparse TF-IDF backend)
* vector_database.py          : VectorDatabase (dense Chroma backend)
* main.py                     : lifespan backend selection and api_generate
* scripts/multiprocess_reindex.py : process_single_pdf_worker
* src/processors/gemini_chunker.py : GeminiChunker cache (with an executable MD5)

External collaborators (PyMuPDF extraction, the LLM chunking services, the
sentence-transformer encoder, the sklearn vectorizer and the Chroma client)
are abstracted as parameters: a per-file processing outcome, a provider
result, a similarity vector over the stored records, and a backend query
response.  Floating point similarity values are modelled as rationals.
The module src/databases/vector_database.py (the manifest-guarded loader
used by the reindex scripts) is absent from the snapshot; it is modelled
from the spec where a claim depends on it, as marked in its doc comment.
-/

/-! ## Data model (documents as produced by data_processor.py) -/

/-- One content chunk as built by LegalDocumentProcessor.chunk_text:
a numeric id unique within the document, the text and a type tag. -/
structure Chunk where
  id : Nat
  text : String
  type : String
deriving DecidableEq, Repr

/-- One extracted legal position (LegalDocumentProcessor.extract_legal_positions):
sentence text plus the article references found in it. -/
structure Position where
  text : String
  articles : List String
deriving DecidableEq, Repr

/-- Document-level metadata fields that the two backends copy into records. -/
structure DocMeta where
  case_number : String
  court : String
  document_type : String
deriving DecidableEq, Repr

/-- A processed document as stored in a JSON file by process_pdf_to_json. -/
structure Doc where
  source_file : String
  metadata : DocMeta
  chunks : List Chunk
  legal_positions : List Position
deriving DecidableEq, Repr

/-- Per-record metadata snapshot, mirroring the dictionaries built inside
SimpleVectorDatabase.add_documents and VectorDatabase.add_documents.
The articles field is present only on legal-position records (there the
Python code adds an extra key); none is the absent key. -/
structure Metadata where
  source_file : String
  case_number : String
  court : String
  document_type : String
  chunk_id : String
  chunk_type : String
  articles : Option String
deriving DecidableEq, Repr

/-- Python str.join with a separator, used for the articles field. -/
def joinSep (sep : String) : List String → String
  | [] => ""
  | [a] => a
  | a :: rest => a ++ sep ++ joinSep sep rest

/-! ## Sparse backend: simple_vector_db.py -/

/-- One stored record of the sparse backend: the element appended to
self.documents in SimpleVectorDatabase.add_documents (lines 104 to 107). -/
structure SRecord where
  text : String
  metadata : Metadata
deriving DecidableEq, Repr

/-- State of SimpleVectorDatabase: the stored records, the fitted flag and
the embeddings matrix (abstracted to a presence marker; its numeric content
lives in the external sklearn vectorizer). -/
structure SimpleVectorDatabase where
  documents : List SRecord
  is_fitted : Bool
  embeddings : Option Unit
deriving DecidableEq, Repr

/-- A fresh SimpleVectorDatabase as left by its constructor when no
persisted pickle exists: no documents, not fitted, no embeddings. -/
def SimpleVectorDatabase.empty : SimpleVectorDatabase :=
  { documents := [], is_fitted := false, embeddings := none }

/-- Metadata dictionary built for a content chunk in
SimpleVectorDatabase.add_documents (lines 76 to 83). -/
def sparseChunkMeta (d : Doc) (c : Chunk) : Metadata :=
  { source_file := d.source_file
    case_number := d.metadata.case_number
    court := d.metadata.court
    document_type := d.metadata.document_type
    chunk_id := toString c.id
    chunk_type := c.type
    articles := none }

/-- Metadata dictionary built for a legal position in
SimpleVectorDatabase.add_documents (lines 89 to 97).  The chunk_id uses
len(texts) taken after the position text was appended, hence the running
count of all texts collected so far in this call, including this one. -/
def sparsePosMeta (d : Doc) (p : Position) (k : Nat) : Metadata :=
  { source_file := d.source_file
    case_number := d.metadata.case_number
    court := d.metadata.court
    document_type := d.metadata.document_type
    chunk_id := "position_" ++ toString k
    chunk_type := "legal_position"
    articles := some (joinSep ", " p.articles) }

/-- One iteration of the chunk loop of SimpleVectorDatabase.add_documents
(lines 73 to 83): append the chunk text and its metadata dictionary. -/
def sparseChunkStep (d : Doc) (acc1 : List String × List Metadata) (c : Chunk) :
    List String × List Metadata :=
  (acc1.1 ++ [c.text], acc1.2 ++ [sparseChunkMeta d c])

/-- One iteration of the legal-position loop (lines 86 to 97): the text is
appended first, then the metadata whose chunk_id reads len(texts). -/
def sparsePosStep (d : Doc) (acc1 : List String × List Metadata) (p : Position) :
    List String × List Metadata :=
  (acc1.1 ++ [p.text], acc1.2 ++ [sparsePosMeta d p (acc1.1.length + 1)])

/-- The per-document body of the loop: all chunks, then all positions. -/
def sparseDocStep (acc : List String × List Metadata) (d : Doc) :
    List String × List Metadata :=
  d.legal_positions.foldl (sparsePosStep d) (d.chunks.foldl (sparseChunkStep d) acc)

/-- The texts and metadatas lists built by the loops of
SimpleVectorDatabase.add_documents (lines 68 to 97): for each document
first all chunks, then all legal positions, appended to shared
accumulators across documents. -/
def sparsePrep (docs : List Doc) : List String × List Metadata :=
  docs.foldl sparseDocStep ([], [])

/-- SimpleVectorDatabase.add_documents (lines 55 to 119): build the text
and metadata lists, extend self.documents with the zipped records, then
refit the vectorizer over all stored documents (_create_embeddings sets
is_fitted and the embeddings matrix whenever any document is stored).
No record ids are computed and nothing is overwritten: the new records are
appended after the existing ones. -/
def SimpleVectorDatabase.add_documents (db : SimpleVectorDatabase)
    (docs : List Doc) : SimpleVectorDatabase :=
  if docs = [] then db
  else
    let prep := sparsePrep docs
    if prep.1 = [] then db
    else
      let newRecords := (prep.1.zip prep.2).map fun tm =>
        { text := tm.1, metadata := tm.2 }
      { documents := db.documents ++ newRecords
        is_fitted := true
        embeddings := some () }

/-! ### Search (SimpleVectorDatabase.search_similar, lines 140 to 183)

The external computation cosine_similarity(transform(query), embeddings)
is abstracted as the rational list sims, one entry per stored record.
The code then ranks indices with similarities.argsort()[-n:][::-1] and
keeps entries with strictly positive similarity. -/

/-- Comparison on (similarity, index) pairs by similarity. -/
def simLe (a b : Rat × Nat) : Prop := a.1 ≤ b.1

instance : DecidableRel simLe := fun a b => inferInstanceAs (Decidable (a.1 ≤ b.1))

instance : IsTotal (Rat × Nat) simLe := ⟨fun a b => le_total a.1 b.1⟩

instance : IsTrans (Rat × Nat) simLe := ⟨fun _ _ _ h1 h2 => le_trans h1 h2⟩

/-- Pairs (similarity value, index), one per entry of sims. -/
def simPairs (sims : List Rat) : List (Rat × Nat) :=
  sims.enum.map fun p => (p.2, p.1)

/-- Ascending sort of the pairs by value; the value order matches
numpy argsort (tie order is irrelevant to every property proved here). -/
def argsortPairs (sims : List Rat) : List (Rat × Nat) :=
  List.insertionSort simLe (simPairs sims)

/-- Python slice l[-n:]: the last n elements, or the whole list when
n = 0 (negative zero slicing) or when n exceeds the length. -/
def takeLastSlice {α : Type} (n : Nat) (l : List α) : List α :=
  if n = 0 then l else l.drop (l.length - n)

/-- The index ranking similarities.argsort()[-n:][::-1] of line 165,
kept as value-index pairs. -/
def topPairs (sims : List Rat) (n : Nat) : List (Rat × Nat) :=
  (takeLastSlice n (argsortPairs sims)).reverse

/-- One search hit of the sparse backend, mirroring the dictionary built
at lines 171 to 176. -/
structure SimpleResult where
  text : String
  metadata : Metadata
  similarity : Rat
  id : String
deriving DecidableEq, Repr

/-- Value type for rendering a result as the literal Python dictionary. -/
inductive RVal where
  | str (s : String)
  | num (q : Rat)
  | meta (m : Metadata)
deriving DecidableEq, Repr

/-- The literal dictionary of lines 171 to 176: keys text, metadata,
similarity, id in that order. -/
def SimpleResult.toDict (r : SimpleResult) : List (String × RVal) :=
  [("text", RVal.str r.text), ("metadata", RVal.meta r.metadata),
   ("similarity", RVal.num r.similarity), ("id", RVal.str r.id)]

/-- Placeholder record used only for out-of-range indexing, which never
occurs when sims has one entry per stored record. -/
def SRecord.default : SRecord :=
  { text := "", metadata :=
    { source_file := "", case_number := "", court := "", document_type := ""
      chunk_id := "", chunk_type := "", articles := none } }

/-- SimpleVectorDatabase.search_similar (lines 140 to 183): return [] when
the database is not fitted or has no embeddings; otherwise walk the ranked
indices and keep entries whose similarity is strictly positive. -/
def SimpleVectorDatabase.search_similar (db : SimpleVectorDatabase)
    (sims : List Rat) (n_results : Nat) : List SimpleResult :=
  if db.is_fitted = false ∨ db.embeddings = none then []
  else
    (topPairs sims n_results).filterMap fun p =>
      if 0 < sims.getD p.2 0 then
        some { text := (db.documents.getD p.2 SRecord.default).text
               metadata := (db.documents.getD p.2 SRecord.default).metadata
               similarity := sims.getD p.2 0
               id := "doc_" ++ toString p.2 }
      else none

/-! ## Dense backend: vector_database.py -/

/-- State of the dense backend; the Chroma collection holds
(id, text, metadata) records, owned by the external client. -/
structure VectorDatabase where
  collection : List (String × String × Metadata)
deriving DecidableEq, Repr

/-- Metadata dictionary for a content chunk in
VectorDatabase.add_documents (lines 118 to 125). -/
def denseChunkMeta (d : Doc) (c : Chunk) : Metadata :=
  { source_file := d.source_file
    case_number := d.metadata.case_number
    court := d.metadata.court
    document_type := d.metadata.document_type
    chunk_id := toString c.id
    chunk_type := c.type
    articles := none }

/-- Metadata dictionary for a legal position in
VectorDatabase.add_documents (lines 132 to 140); here the chunk_id is the
position index j within the document. -/
def densePosMeta (d : Doc) (p : Position) (j : Nat) : Metadata :=
  { source_file := d.source_file
    case_number := d.metadata.case_number
    court := d.metadata.court
    document_type := d.metadata.document_type
    chunk_id := "position_" ++ toString j
    chunk_type := "legal_position"
    articles := some (joinSep ", " p.articles) }

/-- One iteration of the chunk loop of VectorDatabase.add_documents
(lines 115 to 126): append the text, the metadata and the id built as
source_file, an underscore and the chunk id. -/
def denseChunkStep (d : Doc) (acc1 : List String × List Metadata × List String)
    (c : Chunk) : List String × List Metadata × List String :=
  (acc1.1 ++ [c.text],
   acc1.2.1 ++ [denseChunkMeta d c],
   acc1.2.2 ++ [d.source_file ++ "_" ++ toString c.id])

/-- One iteration of the enumerated legal-position loop (lines 129 to
141): the id is source_file, the literal position marker and the index j. -/
def densePosStep (d : Doc) (acc1 : List String × List Metadata × List String)
    (jp : Nat × Position) : List String × List Metadata × List String :=
  (acc1.1 ++ [jp.2.text],
   acc1.2.1 ++ [densePosMeta d jp.2 jp.1],
   acc1.2.2 ++ [d.source_file ++ "_position_" ++ toString jp.1])

/-- The per-document body: all chunks, then all enumerated positions. -/
def denseDocStep (acc : List String × List Metadata × List String) (d : Doc) :
    List String × List Metadata × List String :=
  d.legal_positions.enum.foldl (densePosStep d) (d.chunks.foldl (denseChunkStep d) acc)

/-- The texts, metadatas and ids lists built by the loops of
VectorDatabase.add_documents (lines 108 to 141): per document all chunks
with their chunk ids, then all positions with their enumerated position
ids, appended to shared accumulators. -/
def denseAddPrep (docs : List Doc) :
    List String × List Metadata × List String :=
  docs.foldl denseDocStep ([], [], [])

/-- Follows the words of the spec (section 4.4): a deterministic id scheme,
source_id followed by the chunk id for content chunks and source_id
followed by position_ and the position number for extracted
legal-position sentences, per document. -/
def specRecordIds (d : Doc) : List String :=
  d.chunks.map (fun c => d.source_file ++ "_" ++ toString c.id) ++
    (List.range d.legal_positions.length).map
      (fun n => d.source_file ++ "_position_" ++ toString n)

/-- One search hit of the dense backend, mirroring the dictionary built
at lines 191 to 196 of vector_database.py: the numeric field is the raw
Chroma distance. -/
structure DenseResult where
  text : String
  metadata : Metadata
  distance : Rat
  id : String
deriving DecidableEq, Repr

/-- The literal dictionary of lines 191 to 196: keys text, metadata,
distance, id in that order. -/
def DenseResult.toDict (r : DenseResult) : List (String × RVal) :=
  [("text", RVal.str r.text), ("metadata", RVal.meta r.metadata),
   ("distance", RVal.num r.distance), ("id", RVal.str r.id)]

/-- The first row of a Chroma query response, as read by
VectorDatabase.search_similar: parallel lists of documents, metadatas,
distances and ids.  Chroma returns nearest first, so distances arrive in
ascending order; the code below copies them without reordering. -/
structure QueryResp where
  documents : List String
  metadatas : List Metadata
  distances : List Rat
  ids : List String
deriving DecidableEq, Repr

/-- VectorDatabase.search_similar (lines 164 to 203): the loop over
range(len(results.documents[0])) copying the i-th entry of each parallel
list into a result dictionary, preserving the backend order. -/
def VectorDatabase.search_similar (resp : QueryResp) : List DenseResult :=
  (List.range resp.documents.length).map fun i =>
    { text := resp.documents.getD i ""
      metadata := resp.metadatas.getD i SRecord.default.metadata
      distance := resp.distances.getD i 0
      id := resp.ids.getD i "" }

/-! ## Reindex orchestrator stage 1: data_processor.py process_all_pdfs -/

/-- Outcome of process_pdf_to_json on one PDF, abstracting the external
extraction and chunking: a structured document, an empty dictionary
(extraction yielded no text, lines 276 to 278), or a raised exception. -/
inductive ProcOutcome where
  | ok (d : Doc)
  | empty
  | exn (msg : String)
deriving DecidableEq, Repr

/-- One discovered PDF file: its name, its modification time and the
outcome its processing would produce.  With no source changes the name,
mtime and outcome of a file are the same on every run. -/
structure PdfItem where
  name : String
  mtime : Nat
  outcome : ProcOutcome
deriving DecidableEq, Repr

/-- Fuelled worker for replaceSeq; the fuel is an upper bound on the
number of characters still to be consumed, so it never runs out when
started with the length of the list. -/
def replaceSeqAux (pat rep : List Char) : Nat → List Char → List Char
  | _, [] => []
  | 0, l => l
  | fuel + 1, c :: rest =>
      if pat.isPrefixOf (c :: rest) ∧ pat ≠ [] then
        rep ++ replaceSeqAux pat rep fuel ((c :: rest).drop pat.length)
      else
        c :: replaceSeqAux pat rep fuel rest

/-- Replacement of every non-overlapping occurrence of pat by rep, left
to right: the semantics of Python str.replace over character lists. -/
def replaceSeq (pat rep l : List Char) : List Char :=
  replaceSeqAux pat rep l.length l

/-- The JSON name of a PDF, pdf_file.replace of the pdf suffix by the
json suffix (data_processor.py line 328). -/
def jsonNameOf (n : String) : String :=
  String.mk (replaceSeq ".pdf".data ".json".data n.data)

/-- The JSON output directory: file name, mtime and content per file. -/
abbrev JsonDir := List (String × Nat × Doc)

/-- Lookup of an existing JSON file by name. -/
def lookupJson (js : JsonDir) (n : String) : Option (Nat × Doc) :=
  (js.find? fun j => j.1 = n).map (·.2)

/-- Writing a JSON file: any previous file of that name is replaced and
the new file carries the write-time mtime. -/
def writeJson (js : JsonDir) (n : String) (m : Nat) (d : Doc) : JsonDir :=
  match js with
  | [] => [(n, m, d)]
  | a :: t => if a.1 = n then writeJson t n m d else a :: writeJson t n m d

/-- The run summary returned by process_all_pdfs (line 351). -/
structure Summary where
  processed : Nat
  skipped : Nat
  errors : Nat
  total : Nat
  processed_files : List String
deriving DecidableEq, Repr

/-- The skip test of lines 330 to 338: not forced, the JSON exists and its
mtime is at least the PDF mtime. -/
def skipTest (force : Bool) (js : JsonDir) (it : PdfItem) : Bool :=
  !force &&
    match lookupJson js (jsonNameOf it.name) with
    | some jd => decide (it.mtime ≤ jd.1)
    | none => false

/-- One iteration of the loop of process_all_pdfs (lines 326 to 349):
skip, or process and on success write the JSON and count the file, on an
empty result count nothing, on an exception count an error and continue. -/
def processStep (force : Bool) (now : Nat)
    (acc : Nat × Nat × Nat × List String × JsonDir) (it : PdfItem) :
    Nat × Nat × Nat × List String × JsonDir :=
  if skipTest force acc.2.2.2.2 it then
    (acc.1, acc.2.1 + 1, acc.2.2.1, acc.2.2.2.1, acc.2.2.2.2)
  else
    match it.outcome with
    | ProcOutcome.ok d =>
        (acc.1 + 1, acc.2.1, acc.2.2.1,
         acc.2.2.2.1 ++ [jsonNameOf it.name],
         writeJson acc.2.2.2.2 (jsonNameOf it.name) now d)
    | ProcOutcome.empty => acc
    | ProcOutcome.exn _ =>
        (acc.1, acc.2.1, acc.2.2.1 + 1, acc.2.2.2.1, acc.2.2.2.2)

/-- LegalDocumentProcessor.process_all_pdfs (lines 306 to 351) over the
discovered PDF list, starting from the current JSON directory; now is the
wall-clock time stamped onto written files.  Returns the summary and the
resulting JSON directory. -/
def process_all_pdfs (force : Bool) (now : Nat) (items : List PdfItem)
    (js : JsonDir) : Summary × JsonDir :=
  let r := items.foldl (processStep force now) (0, 0, 0, [], js)
  ({ processed := r.1, skipped := r.2.1, errors := r.2.2.1
     total := items.length, processed_files := r.2.2.2.1 },
   r.2.2.2.2)

/-! ## Worker of scripts/multiprocess_reindex.py -/

/-- The per-file result dictionary returned by process_single_pdf_worker
(chunks, positions and timing fields elided; the error field carries the
captured exception text). -/
structure WorkerResult where
  file : String
  status : String
  error : Option String
deriving DecidableEq, Repr

/-- process_single_pdf_worker (lines 23 to 82): the whole body is wrapped
in try-except, so every outcome, including a raised exception, is turned
into a result dictionary with a status and a captured error message.
The JSON write of the processed branch is the same writeJson as stage 1
and is omitted here because only the returned statuses are aggregated. -/
def process_single_pdf_worker (js : JsonDir) (it : PdfItem) : WorkerResult :=
  if skipTest false js it then
    { file := it.name, status := "skipped", error := none }
  else
    match it.outcome with
    | ProcOutcome.ok _ =>
        { file := it.name, status := "processed", error := none }
    | ProcOutcome.empty =>
        { file := it.name, status := "error"
          error := some "Не удалось обработать файл" }
    | ProcOutcome.exn msg =>
        { file := it.name, status := "error", error := some msg }

/-! ## Reindex orchestrator stage 2: the manifest-guarded loader -/

/-- Events emitted by the loader against durable state, used to state the
ordering invariant between Index Store persistence and manifest append. -/
inductive Ev where
  | persist (id : String)
  | record (id : String)
deriving DecidableEq, Repr

/-- The statistics dictionary returned by load_from_json_files of the
manifest-guarded loader, as printed by scripts/multiprocess_reindex.py
(new_files, loaded, skipped, errors). -/
structure LoadStats where
  new_files : Nat
  skipped : Nat
deriving DecidableEq, Repr

/-- The (text, metadata, id) records of one document, as the Index Store
facade hands them to the backend; reuses the dense translation. -/
def docRecords (d : Doc) : List (String × Metadata × String) :=
  let p := denseAddPrep [d]
  (p.1.zip (p.2.1.zip p.2.2)).map fun t => (t.1, t.2.1, t.2.2)

/-- Modelled from the spec: one step of the loader of
src/databases/vector_database.py (see load_from_json_files below): skip a
manifest-contained id, otherwise persist the records and then append the
id, emitting the corresponding events. -/
def loadStep
    (acc : LoadStats × List String × List (String × Metadata × String) × List Ev)
    (j : String × Nat × Doc) :
    LoadStats × List String × List (String × Metadata × String) × List Ev :=
  if j.1 ∈ acc.2.1 then
    ({ new_files := acc.1.new_files, skipped := acc.1.skipped + 1 },
     acc.2.1, acc.2.2.1, acc.2.2.2)
  else
    ({ new_files := acc.1.new_files + 1, skipped := acc.1.skipped },
     acc.2.1 ++ [j.1],
     acc.2.2.1 ++ docRecords j.2.2,
     acc.2.2.2 ++ [Ev.persist j.1, Ev.record j.1])

/-- Modelled from the spec: src/databases/vector_database.py, the module
imported by scripts/multiprocess_reindex.py and scripts/async_reindex.py,
is absent from the snapshot; only its callers and re-export exist.  Per
spec sections 4.2 and 4.5, load_from_json_files walks the JSON files,
skips every source id already contained in the manifest, and for a new
id first persists all of its records in the Index Store and only then
appends the id to the manifest (section 3, Manifest Entry invariant).
Returns the statistics, the manifest, the store and the event trace. -/
def load_from_json_files (manifest : List String)
    (store : List (String × Metadata × String)) (js : JsonDir) :
    LoadStats × List String × List (String × Metadata × String) × List Ev :=
  js.foldl loadStep ({ new_files := 0, skipped := 0 }, manifest, store, [])

/-- Durable state threaded through a full reindex run: the JSON directory,
the ingestion manifest and the Index Store records. -/
structure RState where
  jsons : JsonDir
  manifest : List String
  store : List (String × Metadata × String)
deriving DecidableEq, Repr

/-- One end-to-end reindex run: stage 1 converts PDFs to JSON with the
mtime skip test (data_processor.py), stage 2 loads every JSON that the
manifest does not yet contain into the Index Store (the spec-modelled
loader), as orchestrated by scripts/multiprocess_reindex.py main. -/
def reindexRun (force : Bool) (now : Nat) (items : List PdfItem)
    (st : RState) : Summary × LoadStats × RState :=
  let s1 := process_all_pdfs force now items st.jsons
  let s2 := load_from_json_files st.manifest st.store s1.2
  (s1.1, s2.1, { jsons := s1.2, manifest := s2.2.1, store := s2.2.2.1 })

/-! ## Backend selection and retrieval facade: main.py -/

/-- The active backend after startup, the global vector_backend value. -/
inductive BackendChoice where
  | chroma (db : VectorDatabase)
  | tfidf (db : SimpleVectorDatabase)
deriving DecidableEq, Repr

/-- The lifespan startup of main.py (lines 26 to 46): construct and
optionally populate the dense backend; any exception in that block is
caught and the sparse backend is used instead.  The combined outcome of
construction plus optional population is the dense argument. -/
def lifespan (dense : Except String VectorDatabase)
    (sparse : SimpleVectorDatabase) : BackendChoice :=
  match dense with
  | Except.ok v => BackendChoice.chroma v
  | Except.error _ => BackendChoice.tfidf sparse

/-- Substring test on character lists (Python in-operator on str). -/
def containsSeq (p l : List Char) : Bool :=
  match l with
  | [] => decide (p = [])
  | _ :: rest => p.isPrefixOf l || containsSeq p rest

/-- Membership of a keyword in the lowered query, Python keyword in query_lower. -/
def kwIn (kw q : String) : Bool := containsSeq kw.data q.data

/-- Keywords of the consumer-protection branch of api_generate (line 106). -/
def consumerKeywords : List String :=
  ["потребитель", "товар", "продавец", "недостаток", "качество"]

/-- Keywords of the contract-dispute branch of api_generate (line 108). -/
def contractKeywords : List String :=
  ["договор", "контракт", "обязательство"]

/-- Lowering of one character under Python str.lower, restricted to the
ASCII and Cyrillic ranges that occur in this code base. -/
def lowerChar (c : Char) : Char :=
  let n := c.toNat
  if 65 ≤ n ∧ n ≤ 90 then Char.ofNat (n + 32)
  else if 1040 ≤ n ∧ n ≤ 1071 then Char.ofNat (n + 32)
  else if n = 1025 then Char.ofNat 1105
  else c

/-- Python str.lower over the whole string. -/
def lowerString (s : String) : String := String.mk (s.data.map lowerChar)

/-- The dispute-type detection of api_generate (lines 104 to 109). -/
def detectDisputeType (query : String) : Option String :=
  let ql := lowerString query
  if consumerKeywords.any fun k => kwIn k ql then some "consumer_protection"
  else if contractKeywords.any fun k => kwIn k ql then some "contract_dispute"
  else none

/-- One search hit as consumed by api_generate through s.get calls. -/
structure SearchDoc where
  text : String
  metadata : Metadata
deriving DecidableEq, Repr

/-- The backend as api_generate probes it: the co_varnames tuple of its
search_similar code object, the call with a dispute_type argument and the
plain call. -/
structure SearchBackend where
  varnames : List String
  searchWithDispute : String → Nat → Option String → List SearchDoc
  search : String → Nat → List SearchDoc

/-- The co_varnames of SimpleVectorDatabase.search_similar and of
VectorDatabase.search_similar as defined in the repository: neither
declares a dispute_type parameter. -/
def shippedSearchVarnames : List String :=
  ["self", "query", "n_results", "filter_metadata"]

/-- One snippet of the api_generate response (lines 128 to 135): text
truncated to 500 characters, source file and chunk type.  No field tags
whether the underlying search was filtered or a fallback. -/
structure Snippet where
  text : String
  source_file : String
  chunk_type : String
deriving DecidableEq, Repr

/-- The api_generate response body (line 136). -/
structure ApiResp where
  provider : Option String
  document : Option String
  snippets : List Snippet
deriving DecidableEq, Repr

/-- Outcome of the external generate_legal_document call, abstracted as a
function of the query and the retrieved snippets sources. -/
structure GenOutcome where
  provider : Option String
  document : Option String
deriving DecidableEq, Repr

/-- The search-selection logic of api_generate (lines 111 to 122): when
the backend declares a dispute_type parameter, search with the detected
filter first and, if that returns nothing and a filter was detected,
retry unfiltered; otherwise always search unfiltered. -/
def apiGenerateSimilar (db : SearchBackend) (query : String) :
    List SearchDoc :=
  let dispute := detectDisputeType query
  if "dispute_type" ∈ db.varnames then
    let s1 := db.searchWithDispute query 5 dispute
    if s1 = [] ∧ ¬ dispute = none then db.search query 5 else s1
  else db.search query 5

/-- The full api_generate body after validation (lines 98 to 136):
retrieve, generate, and shape the response snippets. -/
def api_generate (gen : String → List SearchDoc → GenOutcome)
    (db : SearchBackend) (query : String) : ApiResp :=
  let similar := apiGenerateSimilar db query
  let g := gen query similar
  { provider := g.provider
    document := g.document
    snippets := similar.map fun s =>
      { text := String.mk (s.text.data.take 500)
        source_file := s.metadata.source_file
        chunk_type := s.metadata.chunk_type } }

/-! ## ChunkCache: src/processors/gemini_chunker.py

The cache key is hashlib.md5 of the UTF-8 encoded raw text
(GeminiChunker.get_cache_key, lines 59 to 63).  MD5 is implemented here
executably over byte lists so that key distinctness is computable. -/

/-- Per-round left-rotation amounts of MD5. -/
def md5s : List Nat :=
  [7, 12, 17, 22, 7, 12, 17, 22, 7, 12, 17, 22, 7, 12, 17, 22,
   5, 9, 14, 20, 5, 9, 14, 20, 5, 9, 14, 20, 5, 9, 14, 20,
   4, 11, 16, 23, 4, 11, 16, 23, 4, 11, 16, 23, 4, 11, 16, 23,
   6, 10, 15, 21, 6, 10, 15, 21, 6, 10, 15, 21, 6, 10, 15, 21]

/-- The 64 MD5 additive constants, floor of 2 to the 32 times abs sin. -/
def md5K : List Nat :=
  [0xd76aa478, 0xe8c7b756, 0x242070db, 0xc1bdceee,
   0xf57c0faf, 0x4787c62a, 0xa8304613, 0xfd469501,
   0x698098d8, 0x8b44f7af, 0xffff5bb1, 0x895cd7be,
   0x6b901122, 0xfd987193, 0xa679438e, 0x49b40821,
   0xf61e2562, 0xc040b340, 0x265e5a51, 0xe9b6c7aa,
   0xd62f105d, 0x02441453, 0xd8a1e681, 0xe7d3fbc8,
   0x21e1cde6, 0xc33707d6, 0xf4d50d87, 0x455a14ed,
   0xa9e3e905, 0xfcefa3f8, 0x676f02d9, 0x8d2a4c8a,
   0xfffa3942, 0x8771f681, 0x6d9d6122, 0xfde5380c,
   0xa4beea44, 0x4bdecfa9, 0xf6bb4b60, 0xbebfbc70,
   0x289b7ec6, 0xeaa127fa, 0xd4ef3085, 0x04881d05,
   0xd9d4d039, 0xe6db99e5, 0x1fa27cf8, 0xc4ac5665,
   0xf4292244, 0x432aff97, 0xab9423a7, 0xfc93a039,
   0x655b59c3, 0x8f0ccc92, 0xffeff47d, 0x85845dd1,
   0x6fa87e4f, 0xfe2ce6e0, 0xa3014314, 0x4e0811a1,
   0xf7537e82, 0xbd3af235, 0x2ad7d2bb, 0xeb86d391]

/-- Left rotation of a 32-bit word. -/
def rotl32 (x n : Nat) : Nat :=
  (x % 2 ^ (32 - n)) * 2 ^ n + x / 2 ^ (32 - n)

/-- Bitwise complement of a 32-bit word. -/
def not32 (x : Nat) : Nat := Nat.xor x 0xffffffff

/-- The MD5 round mixing function, by round quarter. -/
def md5F (i B C D : Nat) : Nat :=
  if i < 16 then Nat.lor (Nat.land B C) (Nat.land (not32 B) D)
  else if i < 32 then Nat.lor (Nat.land D B) (Nat.land (not32 D) C)
  else if i < 48 then Nat.xor (Nat.xor B C) D
  else Nat.xor C (Nat.lor B (not32 D))

/-- The MD5 message-word schedule, by round quarter. -/
def md5g (i : Nat) : Nat :=
  if i < 16 then i
  else if i < 32 then (5 * i + 1) % 16
  else if i < 48 then (3 * i + 5) % 16
  else (7 * i) % 16

/-- One MD5 round on the working state. -/
def md5Step (M : Nat → Nat) (st : Nat × Nat × Nat × Nat) (i : Nat) :
    Nat × Nat × Nat × Nat :=
  match st with
  | (A, B, C, D) =>
      let F := (md5F i B C D + A + md5K.getD i 0 + M (md5g i)) % 2 ^ 32
      (D, (B + rotl32 F (md5s.getD i 0)) % 2 ^ 32, B, C)

/-- Processing of one 64-byte block: 64 rounds, then addition into the
chaining state. -/
def md5Block (st : Nat × Nat × Nat × Nat) (block : List Nat) :
    Nat × Nat × Nat × Nat :=
  let M := fun g =>
    block.getD (4 * g) 0 + 256 * block.getD (4 * g + 1) 0 +
      65536 * block.getD (4 * g + 2) 0 + 16777216 * block.getD (4 * g + 3) 0
  match st, (List.range 64).foldl (md5Step M) st with
  | (a, b, c, d), (A, B, C, D) =>
      ((a + A) % 2 ^ 32, (b + B) % 2 ^ 32, (c + C) % 2 ^ 32, (d + D) % 2 ^ 32)

/-- MD5 padding: a 0x80 byte, zeros to 56 mod 64, then the bit length as
eight little-endian bytes. -/
def md5Pad (msg : List Nat) : List Nat :=
  let L := msg.length
  msg ++ [0x80] ++ List.replicate ((119 - L % 64) % 64) 0 ++
    (List.range 8).map fun i => 8 * L / 2 ^ (8 * i) % 256

/-- Split a padded message into 64-byte blocks. -/
def md5Blocks (padded : List Nat) : List (List Nat) :=
  (List.range (padded.length / 64)).map fun i => (padded.drop (64 * i)).take 64

/-- Little-endian byte rendering of a 32-bit word. -/
def le32bytes (x : Nat) : List Nat :=
  [x % 256, x / 256 % 256, x / 65536 % 256, x / 16777216 % 256]

/-- The 16 digest bytes of MD5 over a byte list. -/
def md5Bytes (msg : List Nat) : List Nat :=
  match (md5Blocks (md5Pad msg)).foldl md5Block
      (0x67452301, 0xefcdab89, 0x98badcfe, 0x10325476) with
  | (a, b, c, d) => le32bytes a ++ le32bytes b ++ le32bytes c ++ le32bytes d

/-- Lowercase hex rendering of a byte list, the hexdigest of hashlib. -/
def hexOfBytes (bytes : List Nat) : String :=
  String.mk (bytes.flatMap fun b => [Nat.digitChar (b / 16), Nat.digitChar (b % 16)])

/-- UTF-8 encoding of one character. -/
def utf8Char (c : Char) : List Nat :=
  let n := c.toNat
  if n < 128 then [n]
  else if n < 2048 then [192 + n / 64, 128 + n % 64]
  else if n < 65536 then [224 + n / 4096, 128 + n / 64 % 64, 128 + n % 64]
  else [240 + n / 262144, 128 + n / 4096 % 64, 128 + n / 64 % 64, 128 + n % 64]

/-- UTF-8 encoding of a string, Python text.encode of get_cache_key. -/
def utf8Bytes (s : String) : List Nat := s.data.flatMap utf8Char

/-- GeminiChunker.get_cache_key (lines 59 to 63): the MD5 hexdigest of
the UTF-8 encoded raw document text; the source file name, the chunker
configuration and the chosen provider do not enter the key. -/
def get_cache_key (text : String) : String :=
  hexOfBytes (md5Bytes (utf8Bytes text))

/-- One chunk dictionary as produced by the chunking providers of
gemini_chunker.py (gemini, chatgpt or fallback paths). -/
structure GChunk where
  id : String
  text : String
  type : String
  title : String
  key_articles : List String
  legal_concepts : List String
  source_file : String
  chunking_method : String
deriving DecidableEq, Repr

/-- State of GeminiChunker: the content-hash-keyed cache dictionary,
persisted to the cache file by save_cache and reloaded by load_cache. -/
structure GeminiChunker where
  cache : List (String × List GChunk)
deriving DecidableEq, Repr

/-- Outcome of the external providers inside chunk_document: a successful
chunk list (cached before being returned), or a total failure where the
outer except returns fallback chunks without caching them. -/
inductive ProviderOutcome where
  | success (chunks : List GChunk)
  | failureFallback (chunks : List GChunk)
deriving DecidableEq, Repr

/-- GeminiChunker.chunk_document (lines 452 to 497): look the MD5 key of
the text up in the cache and return the stored chunks on a hit; on a miss
invoke the providers, cache a successful result under the key and save
the cache.  The returned flag is true exactly when the providers ran. -/
def GeminiChunker.chunk_document (gc : GeminiChunker) (text : String)
    (source_file : String) (compute : ProviderOutcome) :
    List GChunk × GeminiChunker × Bool :=
  let key := get_cache_key text
  let _ := source_file
  match gc.cache.find? fun e => e.1 = key with
  | some e => (e.2, gc, false)
  | none =>
      match compute with
      | ProviderOutcome.success cs => (cs, { cache := gc.cache ++ [(key, cs)] }, true)
      | ProviderOutcome.failureFallback cs => (cs, gc, true)

/-! ## Concrete fixtures used by counterexamples and witnesses -/

/-- A small processed document: one content chunk and one legal position. -/
def docA : Doc :=
  { source_file := "a.json"
    metadata := { case_number := "33-123", court := "суд", document_type := "Решение" }
    chunks := [{ id := 0, text := "договор займа и расписка", type := "legal_text" }]
    legal_positions := [{ text := "суд установил факт займа", articles := ["ст. 807"] }] }

/-- A PDF whose processing succeeds with docA. -/
def itemA : PdfItem := { name := "a.pdf", mtime := 3, outcome := ProcOutcome.ok docA }

/-- A PDF whose processing raises an exception. -/
def itemExnC : PdfItem := { name := "c.pdf", mtime := 5, outcome := ProcOutcome.exn "boom" }

/-- Metadata fixture shared by the facade examples. -/
def metaA : Metadata :=
  { source_file := "a.json", case_number := "33-123", court := "суд"
    document_type := "Решение", chunk_id := "0", chunk_type := "legal_text"
    articles := none }

/-- A retrieved document for the facade examples. -/
def sdocA : SearchDoc :=
  { text := "взыскание долга по договору займа", metadata := metaA }

/-- A fixed generation outcome, standing for generate_legal_document. -/
def genFixed : String → List SearchDoc → GenOutcome :=
  fun _ _ => { provider := some "gemini", document := some "документ" }

/-- A backend that declares dispute_type, whose filtered search finds
nothing while its unfiltered search finds sdocA. -/
def dbWithFilter : SearchBackend :=
  { varnames := ["self", "query", "n_results", "dispute_type"]
    searchWithDispute := fun _ _ _ => []
    search := fun _ _ => [sdocA] }

/-- A backend with the shipped signature, searching unfiltered only. -/
def dbPlainB : SearchBackend :=
  { varnames := shippedSearchVarnames
    searchWithDispute := fun _ _ _ => []
    search := fun _ _ => [sdocA] }

/-- A chunk produced by a provider, used by the cache witness. -/
def gchunk1 : GChunk :=
  { id := "d.json_gemini_chunk_0", text := "суд установил", type := "legal_position"
    title := "Чанк 1", key_articles := [], legal_concepts := []
    source_file := "d.json", chunking_method := "gemini" }

/-- A fitted database holding two records, for concrete searches. -/
def dbTwo : SimpleVectorDatabase :=
  { documents := [{ text := "один", metadata := metaA },
                  { text := "два", metadata := metaA }]
    is_fitted := true
    embeddings := some () }

/-- The Chroma response used by the dense-backend examples: nearest first,
so distances arrive ascending. -/
def respTwo : QueryResp :=
  { documents := ["один", "два"]
    metadatas := [metaA, metaA]
    distances := [1, 2]
    ids := ["a.json_0", "a.json_1"] }

/-! ## Supporting lemmas about the stage-1 loop -/

/-- True exactly on a successful processing outcome. -/
def outcomeOk : ProcOutcome → Bool
  | ProcOutcome.ok _ => true
  | _ => false

/-- True exactly on a raised exception. -/
def outcomeExn : ProcOutcome → Bool
  | ProcOutcome.exn _ => true
  | _ => false

lemma lookupJson_writeJson_self (n : String) (m : Nat) (d : Doc) :
    ∀ js : JsonDir, lookupJson (writeJson js n m d) n = some (m, d) := by
  intro js
  induction js with
  | nil => simp [lookupJson, writeJson, List.find?_cons]
  | cons a t ih =>
      by_cases ha : a.1 = n
      · simpa [writeJson, ha] using ih
      · simpa [lookupJson, writeJson, ha, List.find?_cons] using ih

lemma lookupJson_writeJson_ne (n n2 : String) (m : Nat) (d : Doc)
    (h : ¬ n2 = n) :
    ∀ js : JsonDir, lookupJson (writeJson js n m d) n2 = lookupJson js n2 := by
  intro js
  induction js with
  | nil =>
      have hne : ¬ n = n2 := fun hc => h hc.symm
      simp [lookupJson, writeJson, List.find?_cons, hne]
  | cons a t ih =>
      have hne : ¬ n = n2 := fun hc => h hc.symm
      by_cases ha : a.1 = n
      · simpa [lookupJson, writeJson, ha, List.find?_cons, hne] using ih
      · by_cases ha2 : a.1 = n2
        · simp [lookupJson, writeJson, ha, List.find?_cons, ha2, h]
        · simpa [lookupJson, writeJson, ha, List.find?_cons, ha2] using ih

lemma skipTest_congr (force : Bool) {js1 js2 : JsonDir} (it : PdfItem)
    (h : lookupJson js1 (jsonNameOf it.name) = lookupJson js2 (jsonNameOf it.name)) :
    skipTest force js1 it = skipTest force js2 it := by
  simp [skipTest, h]

lemma processStep_sum (force : Bool) (now : Nat)
    (acc : Nat × Nat × Nat × List String × JsonDir) (it : PdfItem) :
    ((processStep force now acc it).1 + (processStep force now acc it).2.1 +
        (processStep force now acc it).2.2.1 ≤ acc.1 + acc.2.1 + acc.2.2.1 + 1) ∧
    (¬ it.outcome = ProcOutcome.empty →
      (processStep force now acc it).1 + (processStep force now acc it).2.1 +
        (processStep force now acc it).2.2.1 = acc.1 + acc.2.1 + acc.2.2.1 + 1) := by
  rcases acc with ⟨p, s, e, fs, js⟩
  by_cases hsk : skipTest force js it = true
  · simp only [processStep, hsk, if_true]
    exact ⟨by omega, fun _ => by omega⟩
  · cases hout : it.outcome with
    | ok d =>
        simp only [processStep, hsk, if_false, Bool.false_eq_true, hout]
        exact ⟨by omega, fun _ => by omega⟩
    | empty =>
        simp only [processStep, hsk, if_false, Bool.false_eq_true, hout]
        exact ⟨by omega, fun hc => absurd trivial hc⟩
    | exn m =>
        simp only [processStep, hsk, if_false, Bool.false_eq_true, hout]
        exact ⟨by omega, fun _ => by omega⟩

lemma foldSum (force : Bool) (now : Nat) :
    ∀ (items : List PdfItem) (acc : Nat × Nat × Nat × List String × JsonDir),
      ((items.foldl (processStep force now) acc).1 +
          (items.foldl (processStep force now) acc).2.1 +
          (items.foldl (processStep force now) acc).2.2.1 ≤
        acc.1 + acc.2.1 + acc.2.2.1 + items.length) ∧
      ((∀ it ∈ items, ¬ it.outcome = ProcOutcome.empty) →
        (items.foldl (processStep force now) acc).1 +
            (items.foldl (processStep force now) acc).2.1 +
            (items.foldl (processStep force now) acc).2.2.1 =
          acc.1 + acc.2.1 + acc.2.2.1 + items.length) := by
  intro items
  induction items with
  | nil => intro acc; simp
  | cons h t ih =>
      intro acc
      have hstep := processStep_sum force now acc h
      have hrec := ih (processStep force now acc h)
      constructor
      · calc (t.foldl (processStep force now) (processStep force now acc h)).1 +
              (t.foldl (processStep force now) (processStep force now acc h)).2.1 +
              (t.foldl (processStep force now) (processStep force now acc h)).2.2.1 ≤
            (processStep force now acc h).1 + (processStep force now acc h).2.1 +
              (processStep force now acc h).2.2.1 + t.length := hrec.1
          _ ≤ acc.1 + acc.2.1 + acc.2.2.1 + 1 + t.length := by
              have := hstep.1; omega
          _ = acc.1 + acc.2.1 + acc.2.2.1 + (h :: t).length := by
              simp [List.length_cons]; omega
      · intro hno
        have hh : ¬ h.outcome = ProcOutcome.empty := hno h (by simp)
        have ht : ∀ it ∈ t, ¬ it.outcome = ProcOutcome.empty := fun it hit =>
          hno it (by simp [hit])
        have := hrec.2 ht
        have := hstep.2 hh
        simp only [List.foldl_cons, List.length_cons]
        omega

lemma outcomeOk_ok (d : Doc) : outcomeOk (ProcOutcome.ok d) = true := rfl

lemma outcomeOk_empty : outcomeOk ProcOutcome.empty = false := rfl

lemma outcomeOk_exn (m : String) : outcomeOk (ProcOutcome.exn m) = false := rfl

lemma outcomeExn_ok (d : Doc) : outcomeExn (ProcOutcome.ok d) = false := rfl

lemma outcomeExn_empty : outcomeExn ProcOutcome.empty = false := rfl

lemma outcomeExn_exn (m : String) : outcomeExn (ProcOutcome.exn m) = true := rfl

lemma foldCounts (force : Bool) (now : Nat) :
    ∀ (items : List PdfItem) (js : JsonDir) (p s e : Nat) (fs : List String),
      ((items.map fun it => jsonNameOf it.name).Nodup) →
      ((items.foldl (processStep force now) (p, s, e, fs, js)).1 =
          p + items.countP fun it => !skipTest force js it && outcomeOk it.outcome) ∧
      ((items.foldl (processStep force now) (p, s, e, fs, js)).2.1 =
          s + items.countP fun it => skipTest force js it) ∧
      ((items.foldl (processStep force now) (p, s, e, fs, js)).2.2.1 =
          e + items.countP fun it => !skipTest force js it && outcomeExn it.outcome) := by
  intro items
  induction items with
  | nil => intro js p s e fs _; simp
  | cons h t ih =>
      intro js p s e fs hnd
      have hnd2 := List.nodup_cons.mp hnd
      have hkeys : ∀ it ∈ t, ¬ jsonNameOf it.name = jsonNameOf h.name := by
        intro it hit hc
        apply hnd2.1
        show jsonNameOf h.name ∈ List.map (fun it => jsonNameOf it.name) t
        rw [← hc]
        exact List.mem_map_of_mem (fun x => jsonNameOf x.name) hit
      by_cases hsk : skipTest force js h = true
      · have hstep : processStep force now (p, s, e, fs, js) h = (p, s + 1, e, fs, js) := by
          simp [processStep, hsk]
        have hrec := ih js p (s + 1) e fs hnd2.2
        simp only [List.foldl_cons, hstep, List.countP_cons, hsk, Bool.not_true,
          Bool.false_and, if_true]
        refine ⟨?_, ?_, ?_⟩
        · have := hrec.1; simp only [Bool.false_eq_true, if_false] at *; omega
        · have := hrec.2.1; omega
        · have := hrec.2.2; simp only [Bool.false_eq_true, if_false] at *; omega
      · have hskf : skipTest force js h = false := by
          simpa using hsk
        cases hout : h.outcome with
        | ok d =>
            have hstep : processStep force now (p, s, e, fs, js) h =
                (p + 1, s, e, fs ++ [jsonNameOf h.name],
                 writeJson js (jsonNameOf h.name) now d) := by
              simp [processStep, hsk, hout]
            have hrec := ih (writeJson js (jsonNameOf h.name) now d) (p + 1) s e
              (fs ++ [jsonNameOf h.name]) hnd2.2
            have hsame : ∀ it ∈ t,
                skipTest force (writeJson js (jsonNameOf h.name) now d) it =
                  skipTest force js it := by
              intro it hit
              exact skipTest_congr force it
                (lookupJson_writeJson_ne (jsonNameOf h.name) (jsonNameOf it.name) now d
                  (hkeys it hit) js)
            have hc1 : ∀ (pr : ProcOutcome → Bool),
                (t.countP fun it =>
                    !skipTest force (writeJson js (jsonNameOf h.name) now d) it &&
                      pr it.outcome) =
                  t.countP fun it => !skipTest force js it && pr it.outcome := by
              intro pr
              apply List.countP_congr
              intro it hit
              rw [hsame it hit]
            have hc2 : (t.countP fun it =>
                  skipTest force (writeJson js (jsonNameOf h.name) now d) it) =
                t.countP fun it => skipTest force js it := by
              apply List.countP_congr
              intro it hit
              rw [hsame it hit]
            simp only [List.foldl_cons, hstep, List.countP_cons, hskf, hout,
              outcomeOk_ok, outcomeExn_ok, Bool.not_false, Bool.and_true,
              Bool.and_false, if_true]
            refine ⟨?_, ?_, ?_⟩
            · have := hrec.1; rw [hc1] at this; omega
            · have := hrec.2.1; rw [hc2] at this
              simp only [Bool.false_eq_true, if_false] at *; omega
            · have := hrec.2.2; rw [hc1] at this
              simp only [Bool.false_eq_true, if_false] at *; omega
        | empty =>
            have hstep : processStep force now (p, s, e, fs, js) h = (p, s, e, fs, js) := by
              simp [processStep, hsk, hout]
            have hrec := ih js p s e fs hnd2.2
            simp only [List.foldl_cons, hstep, List.countP_cons, hskf, hout,
              outcomeOk_empty, outcomeExn_empty, Bool.and_false]
            refine ⟨?_, ?_, ?_⟩
            · have := hrec.1; simp only [Bool.false_eq_true, if_false] at *; omega
            · have := hrec.2.1; simp only [Bool.false_eq_true, if_false] at *; omega
            · have := hrec.2.2; simp only [Bool.false_eq_true, if_false] at *; omega
        | exn msg =>
            have hstep : processStep force now (p, s, e, fs, js) h =
                (p, s, e + 1, fs, js) := by
              simp [processStep, hsk, hout]
            have hrec := ih js p s (e + 1) fs hnd2.2
            simp only [List.foldl_cons, hstep, List.countP_cons, hskf, hout,
              outcomeOk_exn, outcomeExn_exn, Bool.not_false, Bool.and_true,
              Bool.and_false, if_true]
            refine ⟨?_, ?_, ?_⟩
            · have := hrec.1; simp only [Bool.false_eq_true, if_false] at *; omega
            · have := hrec.2.1; simp only [Bool.false_eq_true, if_false] at *; omega
            · have := hrec.2.2; omega

/-! ## Claim C9 -/

/-- C9, amended: in every summary of process_all_pdfs each discovered file
is counted in at most one of processed, skipped or errors, so the three
buckets sum to at most total; the sum equals total when no file yields an
empty processing result, but a file whose extraction yields empty data is
counted in none of the buckets (the if data branch of lines 340 to 344
increments nothing when data is falsy). -/
theorem c9_bucket_sum (force : Bool) (now : Nat) (items : List PdfItem)
    (js : JsonDir) :
    ((process_all_pdfs force now items js).1.processed +
        (process_all_pdfs force now items js).1.skipped +
        (process_all_pdfs force now items js).1.errors ≤
      (process_all_pdfs force now items js).1.total) ∧
    ((∀ it ∈ items, ¬ it.outcome = ProcOutcome.empty) →
      (process_all_pdfs force now items js).1.processed +
          (process_all_pdfs force now items js).1.skipped +
          (process_all_pdfs force now items js).1.errors =
        (process_all_pdfs force now items js).1.total) := by
  have h := foldSum force now items (0, 0, 0, [], js)
  constructor
  · simpa [process_all_pdfs] using h.1
  · intro hno
    simpa [process_all_pdfs] using h.2 hno

/-- C9, counterexample to the claim as stated: one discovered PDF whose
text extraction yields empty data is counted in none of the three buckets,
so processed + skipped + errors is 0 while total is 1. -/
theorem c9_counterexample :
    (process_all_pdfs false 0
        [{ name := "a.pdf", mtime := 5, outcome := ProcOutcome.empty }] []).1 =
      { processed := 0, skipped := 0, errors := 0, total := 1, processed_files := [] } ∧
    ¬ ((0 : Nat) + 0 + 0 = 1) := by
  exact ⟨by decide, by decide⟩

/-- C9, witness: the amended theorem applied to a concrete corpus with no
empty-data file, where the buckets sum exactly to the total. -/
theorem c9_witness :
    (∀ it ∈ [itemA, itemExnC], ¬ it.outcome = ProcOutcome.empty) ∧
    (process_all_pdfs false 9 [itemA, itemExnC] []).1.processed +
        (process_all_pdfs false 9 [itemA, itemExnC] []).1.skipped +
        (process_all_pdfs false 9 [itemA, itemExnC] []).1.errors =
      (process_all_pdfs false 9 [itemA, itemExnC] []).1.total :=
  ⟨by decide, (c9_bucket_sum false 9 [itemA, itemExnC] []).2 (by decide)⟩

/-! ## Claim C3 -/

/-- C3: per-item failure isolation.  In process_all_pdfs an exception
raised for one file increments only the error counter and the loop
continues, so the summary always exists with total the number of
discovered files and processed, skipped and errors counting exactly the
successful, up-to-date and raising files respectively; and in
process_single_pdf_worker every exception is captured into an error
status with its message, never propagated. -/
theorem c3_per_item_isolation :
    (∀ (force : Bool) (now : Nat) (items : List PdfItem) (js : JsonDir),
      ((items.map fun it => jsonNameOf it.name).Nodup) →
      (process_all_pdfs force now items js).1.total = items.length ∧
      (process_all_pdfs force now items js).1.processed =
        (items.countP fun it => !skipTest force js it && outcomeOk it.outcome) ∧
      (process_all_pdfs force now items js).1.skipped =
        (items.countP fun it => skipTest force js it) ∧
      (process_all_pdfs force now items js).1.errors =
        (items.countP fun it => !skipTest force js it && outcomeExn it.outcome)) ∧
    (∀ (js : JsonDir) (it : PdfItem) (msg : String),
      it.outcome = ProcOutcome.exn msg → skipTest false js it = false →
      process_single_pdf_worker js it =
        { file := it.name, status := "error", error := some msg }) := by
  constructor
  · intro force now items js hnd
    have h := foldCounts force now items js 0 0 0 [] hnd
    exact ⟨by simp [process_all_pdfs], by simpa [process_all_pdfs] using h.1,
      by simpa [process_all_pdfs] using h.2.1, by simpa [process_all_pdfs] using h.2.2⟩
  · intro js it msg hout hskip
    simp [process_single_pdf_worker, hskip, hout]

/-- C3, witness: the theorem applied to a concrete batch containing a
raising file, whose error is counted while the run still returns a full
summary, and to the worker on the raising file. -/
theorem c3_witness :
    ((process_all_pdfs false 9 [itemA, itemExnC] []).1.errors =
        ([itemA, itemExnC].countP fun it =>
          !skipTest false [] it && outcomeExn it.outcome) ∧
      (process_all_pdfs false 9 [itemA, itemExnC] []).1.total = 2) ∧
    process_single_pdf_worker [] itemExnC =
      { file := "c.pdf", status := "error", error := some "boom" } :=
  ⟨⟨(c3_per_item_isolation.1 false 9 [itemA, itemExnC] [] (by decide)).2.2.2,
    ((c3_per_item_isolation.1 false 9 [itemA, itemExnC] [] (by decide)).1.trans (by decide))⟩,
   c3_per_item_isolation.2 [] itemExnC "boom" (by decide) (by decide)⟩

/-! ## Claim C2 -/

lemma denseChunkFold_ids (d : Doc) :
    ∀ (cs : List Chunk) (acc : List String × List Metadata × List String),
      (cs.foldl (denseChunkStep d) acc).2.2 =
        acc.2.2 ++ cs.map fun c => d.source_file ++ "_" ++ toString c.id := by
  intro cs
  induction cs with
  | nil => intro acc; simp
  | cons c t ih =>
      intro acc
      simp only [List.foldl_cons, List.map_cons]
      rw [ih]
      simp [denseChunkStep, List.append_assoc]

lemma densePosFold_ids (d : Doc) :
    ∀ (ps : List (Nat × Position)) (acc : List String × List Metadata × List String),
      (ps.foldl (densePosStep d) acc).2.2 =
        acc.2.2 ++ ps.map fun jp => d.source_file ++ "_position_" ++ toString jp.1 := by
  intro ps
  induction ps with
  | nil => intro acc; simp
  | cons jp t ih =>
      intro acc
      simp only [List.foldl_cons, List.map_cons]
      rw [ih]
      simp [densePosStep, List.append_assoc]

lemma denseDocStep_ids (acc : List String × List Metadata × List String) (d : Doc) :
    (denseDocStep acc d).2.2 = acc.2.2 ++ specRecordIds d := by
  have hpos : (d.legal_positions.enum.map fun jp =>
      d.source_file ++ "_position_" ++ toString jp.1) =
      (List.range d.legal_positions.length).map fun n =>
        d.source_file ++ "_position_" ++ toString n := by
    have : (d.legal_positions.enum.map fun jp =>
        d.source_file ++ "_position_" ++ toString jp.1) =
        (d.legal_positions.enum.map Prod.fst).map fun n =>
          d.source_file ++ "_position_" ++ toString n := by
      rw [List.map_map]
      rfl
    rw [this, List.enum_map_fst]
  simp only [denseDocStep]
  rw [densePosFold_ids, denseChunkFold_ids, hpos, specRecordIds, List.append_assoc]

lemma denseAddPrep_ids_aux :
    ∀ (docs : List Doc) (acc : List String × List Metadata × List String),
      (docs.foldl denseDocStep acc).2.2 = acc.2.2 ++ docs.flatMap specRecordIds := by
  intro docs
  induction docs with
  | nil => intro acc; simp
  | cons d t ih =>
      intro acc
      simp only [List.foldl_cons, List.flatMap_cons]
      rw [ih, denseDocStep_ids, List.append_assoc]

lemma sparseChunkFold_len (d : Doc) :
    ∀ (cs : List Chunk) (acc : List String × List Metadata),
      (cs.foldl (sparseChunkStep d) acc).1.length = acc.1.length + cs.length ∧
      (cs.foldl (sparseChunkStep d) acc).2.length = acc.2.length + cs.length := by
  intro cs
  induction cs with
  | nil => intro acc; simp
  | cons c t ih =>
      intro acc
      have := ih (sparseChunkStep d acc c)
      simp only [List.foldl_cons, List.length_cons]
      constructor
      · rw [this.1]; simp [sparseChunkStep]; omega
      · rw [this.2]; simp [sparseChunkStep]; omega

lemma sparsePosFold_len (d : Doc) :
    ∀ (ps : List Position) (acc : List String × List Metadata),
      (ps.foldl (sparsePosStep d) acc).1.length = acc.1.length + ps.length ∧
      (ps.foldl (sparsePosStep d) acc).2.length = acc.2.length + ps.length := by
  intro ps
  induction ps with
  | nil => intro acc; simp
  | cons p t ih =>
      intro acc
      have := ih (sparsePosStep d acc p)
      simp only [List.foldl_cons, List.length_cons]
      constructor
      · rw [this.1]; simp [sparsePosStep]; omega
      · rw [this.2]; simp [sparsePosStep]; omega

lemma sparseFold_len :
    ∀ (docs : List Doc) (acc : List String × List Metadata),
      acc.1.length = acc.2.length →
      (docs.foldl sparseDocStep acc).1.length = (docs.foldl sparseDocStep acc).2.length := by
  intro docs
  induction docs with
  | nil => intro acc h; simpa using h
  | cons d t ih =>
      intro acc h
      simp only [List.foldl_cons]
      apply ih
      simp only [sparseDocStep]
      have hc := sparseChunkFold_len d d.chunks acc
      have hp := sparsePosFold_len d d.legal_positions (d.chunks.foldl (sparseChunkStep d) acc)
      rw [hp.1, hp.2, hc.1, hc.2, h]

lemma sparsePrep_len (docs : List Doc) :
    (sparsePrep docs).1.length = (sparsePrep docs).2.length :=
  sparseFold_len docs ([], []) rfl

lemma add_documents_length (db : SimpleVectorDatabase) (docs : List Doc)
    (h : ¬ (sparsePrep docs).1 = []) :
    (db.add_documents docs).documents.length =
      db.documents.length + (sparsePrep docs).1.length := by
  have hdocs : ¬ docs = [] := by
    intro hc
    apply h
    rw [hc]
    rfl
  rw [SimpleVectorDatabase.add_documents]
  rw [if_neg hdocs]
  simp only [if_neg h]
  simp [List.length_zip, sparsePrep_len docs]

/-- C2, counterexample to the claim as stated: re-ingesting the same
document into SimpleVectorDatabase.add_documents appends its two records
again (the store grows from 2 to 4 records) instead of overwriting, since
the sparse backend computes no record ids at all. -/
theorem c2_counterexample :
    ((SimpleVectorDatabase.empty.add_documents [docA]).add_documents
        [docA]).documents.length = 4 ∧
    (SimpleVectorDatabase.empty.add_documents [docA]).documents.length = 2 := by
  exact ⟨by decide, by decide⟩

/-- C2, amended: the dense backend (VectorDatabase.add_documents) computes
record ids exactly by the deterministic scheme of the spec, source_file
with the chunk id for content chunks and source_file with position and
the position index for legal positions, so re-adding the same document
reproduces identical ids; the sparse backend computes no ids and appends,
so re-ingesting a document there duplicates its records. -/
theorem c2_record_ids :
    (∀ docs : List Doc, (denseAddPrep docs).2.2 = docs.flatMap specRecordIds) ∧
    (∀ (db : SimpleVectorDatabase) (docs : List Doc),
      ¬ (sparsePrep docs).1 = [] →
      ((db.add_documents docs).add_documents docs).documents.length =
        db.documents.length + 2 * (sparsePrep docs).1.length) := by
  constructor
  · intro docs
    simpa using denseAddPrep_ids_aux docs ([], [], [])
  · intro db docs h
    rw [add_documents_length (db.add_documents docs) docs h,
      add_documents_length db docs h]
    omega

/-- C2, witness: the amended theorem applied to the concrete document,
whose dense ids are the two scheme strings and whose double sparse ingest
adds two times two records. -/
theorem c2_witness :
    ((denseAddPrep [docA]).2.2 =
        ["a.json_0", "a.json_position_0"]) ∧
    ¬ (sparsePrep [docA]).1 = [] ∧
    ((SimpleVectorDatabase.empty.add_documents [docA]).add_documents
        [docA]).documents.length =
      SimpleVectorDatabase.empty.documents.length + 2 * (sparsePrep [docA]).1.length :=
  ⟨(c2_record_ids.1 [docA]).trans (by decide),
   by decide,
   c2_record_ids.2 SimpleVectorDatabase.empty [docA] (by decide)⟩

/-! ## Claim C8 -/

/-- C8, amended: api_generate retries an empty filtered search without the
filter only when the backend declares a dispute_type parameter; the
backends shipped in the repository declare no such parameter, so with
them every search runs unfiltered; and in all cases the response carries
no tag distinguishing filtered from fallback-unfiltered results. -/
theorem c8_filter_fallback :
    (∀ (db : SearchBackend) (query : String),
      "dispute_type" ∈ db.varnames →
      db.searchWithDispute query 5 (detectDisputeType query) = [] →
      ¬ detectDisputeType query = none →
      apiGenerateSimilar db query = db.search query 5) ∧
    (∀ (db : SearchBackend) (query : String),
      ¬ "dispute_type" ∈ db.varnames →
      apiGenerateSimilar db query = db.search query 5) ∧
    ¬ "dispute_type" ∈ shippedSearchVarnames := by
  refine ⟨?_, ?_, by decide⟩
  · intro db q hmem hempty hdet
    simp [apiGenerateSimilar, hmem, hempty, hdet]
  · intro db q hmem
    simp [apiGenerateSimilar, hmem]

/-- C8, counterexample to the claim as stated: for a query that detects a
dispute type and a backend whose filtered search returns zero results,
the fallback-unfiltered response is byte-for-byte identical to the
response of a backend that never filtered at all, so callers cannot
distinguish filtered results from fallback-unfiltered results — no tag
exists anywhere in the response. -/
theorem c8_counterexample :
    api_generate genFixed dbWithFilter "договор займа" =
      api_generate genFixed dbPlainB "договор займа" ∧
    ¬ (api_generate genFixed dbWithFilter "договор займа").snippets = [] ∧
    dbWithFilter.searchWithDispute "договор займа" 5
        (detectDisputeType "договор займа") = [] ∧
    detectDisputeType "договор займа" = some "contract_dispute" :=
  ⟨by decide, by decide, rfl, by decide⟩

/-- C8, witness: the amended theorem applied to the two concrete backends,
one taking the fallback retry and one never filtering. -/
theorem c8_witness :
    ("dispute_type" ∈ dbWithFilter.varnames ∧
      apiGenerateSimilar dbWithFilter "договор займа" =
        dbWithFilter.search "договор займа" 5) ∧
    (¬ "dispute_type" ∈ dbPlainB.varnames ∧
      apiGenerateSimilar dbPlainB "договор займа" =
        dbPlainB.search "договор займа" 5) :=
  ⟨⟨by decide,
    c8_filter_fallback.1 dbWithFilter "договор займа" (by decide) rfl (by decide)⟩,
   ⟨by decide, c8_filter_fallback.2.1 dbPlainB "договор займа" (by decide)⟩⟩

/-! ## Claim C6 -/

/-- C6: the chunk cache is keyed by the MD5 of the raw text alone.  On a
hit, chunk_document returns exactly the stored chunks, unchanged state and
no provider call, whatever the source-file name and whatever the provider
would have produced; after a successful computation is stored, every later
call with the same text is such a hit; and a text whose key differs from
every cached key (in particular a text whose MD5 differs, as a one
character change produces) is a miss and recomputes. -/
theorem c6_cache_behavior :
    (∀ (gc : GeminiChunker) (t sf : String) (comp : ProviderOutcome)
        (e : String × List GChunk),
      gc.cache.find? (fun x => x.1 = get_cache_key t) = some e →
      gc.chunk_document t sf comp = (e.2, gc, false)) ∧
    (∀ (gc : GeminiChunker) (t sf sf2 : String) (comp2 : ProviderOutcome)
        (cs : List GChunk),
      gc.cache.find? (fun x => x.1 = get_cache_key t) = none →
      ((gc.chunk_document t sf (ProviderOutcome.success cs)).2.1.chunk_document
          t sf2 comp2) =
        (cs, (gc.chunk_document t sf (ProviderOutcome.success cs)).2.1, false)) ∧
    (∀ (gc : GeminiChunker) (t2 sf : String) (comp : ProviderOutcome),
      (∀ e ∈ gc.cache, ¬ e.1 = get_cache_key t2) →
      (gc.chunk_document t2 sf comp).2.2 = true) := by
  refine ⟨?_, ?_, ?_⟩
  · intro gc t sf comp e hfind
    simp [GeminiChunker.chunk_document, hfind]
  · intro gc t sf sf2 comp2 cs hnone
    have hstate : (gc.chunk_document t sf (ProviderOutcome.success cs)).2.1 =
        { cache := gc.cache ++ [(get_cache_key t, cs)] } := by
      simp [GeminiChunker.chunk_document, hnone]
    have hfind2 : ({ cache := gc.cache ++ [(get_cache_key t, cs)] } :
        GeminiChunker).cache.find? (fun x => x.1 = get_cache_key t) =
        some (get_cache_key t, cs) := by
      simp [List.find?_append, hnone, List.find?_cons]
    rw [hstate]
    simp [GeminiChunker.chunk_document, hfind2]
  · intro gc t2 sf comp hall
    have hnone : gc.cache.find? (fun x => x.1 = get_cache_key t2) = none := by
      rw [List.find?_eq_none]
      intro x hx
      simpa using hall x hx
    cases comp with
    | success cs => simp [GeminiChunker.chunk_document, hnone]
    | failureFallback cs => simp [GeminiChunker.chunk_document, hnone]

/-- C6, witness: a concrete store-then-hit with a different source file
and provider outcome on the second call, and a concrete one-character
change of the text whose MD5 key differs and therefore misses. -/
theorem c6_witness :
    (GeminiChunker.mk []).cache.find? (fun x => x.1 = get_cache_key "абв") = none ∧
    (((GeminiChunker.mk []).chunk_document "абв" "d.json"
          (ProviderOutcome.success [gchunk1])).2.1.chunk_document "абв"
        "other.json" (ProviderOutcome.failureFallback [])) =
      ([gchunk1],
       ((GeminiChunker.mk []).chunk_document "абв" "d.json"
          (ProviderOutcome.success [gchunk1])).2.1, false) ∧
    ¬ get_cache_key "абг" = get_cache_key "абв" ∧
    ((((GeminiChunker.mk []).chunk_document "абв" "d.json"
          (ProviderOutcome.success [gchunk1])).2.1).chunk_document "абг" "d.json"
        (ProviderOutcome.success [])).2.2 = true :=
  ⟨rfl,
   c6_cache_behavior.2.1 (GeminiChunker.mk []) "абв" "d.json" "other.json"
     (ProviderOutcome.failureFallback []) [gchunk1] rfl,
   by decide,
   c6_cache_behavior.2.2 _ "абг" "d.json" (ProviderOutcome.success []) (by decide)⟩

/-! ## Claim C10 -/

/-- C10: search_similar on a never-fitted or embedding-less database
returns the empty list rather than raising; every returned entry has a
strictly positive similarity; and consequently the result list can be
shorter than n_results even when the store holds at least n_results
records (witnessed by a store of two records and an all-zero similarity
vector). -/
theorem c10_search_degrades :
    (∀ (db : SimpleVectorDatabase) (sims : List Rat) (n : Nat),
      db.is_fitted = false ∨ db.embeddings = none →
      db.search_similar sims n = []) ∧
    (∀ (db : SimpleVectorDatabase) (sims : List Rat) (n : Nat) (r : SimpleResult),
      r ∈ db.search_similar sims n → 0 < r.similarity) ∧
    (∃ (db : SimpleVectorDatabase) (sims : List Rat) (n : Nat),
      n ≤ db.documents.length ∧ (db.search_similar sims n).length < n) := by
  refine ⟨?_, ?_, ⟨dbTwo, [0, 0], 2, by decide, by decide⟩⟩
  · intro db sims n h
    simp [SimpleVectorDatabase.search_similar, h]
  · intro db sims n r hr
    rw [SimpleVectorDatabase.search_similar] at hr
    by_cases hguard : db.is_fitted = false ∨ db.embeddings = none
    · rw [if_pos hguard] at hr
      simp at hr
    · rw [if_neg hguard] at hr
      obtain ⟨p, _, hp⟩ := List.mem_filterMap.mp hr
      by_cases hpos : 0 < sims.getD p.2 0
      · rw [if_pos hpos] at hp
        have := Option.some.inj hp
        rw [← this]
        exact hpos
      · rw [if_neg hpos] at hp
        exact absurd hp (by simp)

/-- C10, witness: the theorem applied to the fresh empty database and to
a concrete hit of a fitted two-record database. -/
theorem c10_witness :
    SimpleVectorDatabase.empty.search_similar [] 5 = [] ∧
    (0 : Rat) <
      ({ text := "два", metadata := metaA, similarity := 2, id := "doc_1" } :
        SimpleResult).similarity :=
  ⟨c10_search_degrades.1 SimpleVectorDatabase.empty [] 5 (Or.inl rfl),
   c10_search_degrades.2.1 dbTwo [1, 2] 2
     { text := "два", metadata := metaA, similarity := 2, id := "doc_1" }
     (by decide)⟩

/-! ## Ranking lemmas for the sparse search -/

lemma simPairs_spec (sims : List Rat) :
    ∀ p ∈ simPairs sims, p.1 = sims.getD p.2 0 ∧ p.2 < sims.length := by
  intro p hp
  obtain ⟨j, hj, hjp⟩ := List.mem_iff_getElem.mp hp
  have hlen : (simPairs sims).length = sims.length := by simp [simPairs]
  have hjs : j < sims.length := by rw [← hlen]; exact hj
  have hval : (simPairs sims)[j] = (sims[j], j) := by
    simp [simPairs]
  rw [hval] at hjp
  rw [← hjp]
  exact ⟨(List.getD_eq_getElem sims 0 hjs).symm, hjs⟩

lemma argsort_spec (sims : List Rat) :
    ∀ p ∈ argsortPairs sims, p.1 = sims.getD p.2 0 ∧ p.2 < sims.length :=
  fun p hp =>
    simPairs_spec sims p ((List.perm_insertionSort simLe (simPairs sims)).mem_iff.mp hp)

lemma topPairs_subset (sims : List Rat) (n : Nat) :
    ∀ p ∈ topPairs sims n, p ∈ argsortPairs sims := by
  intro p hp
  have hp2 := List.mem_reverse.mp hp
  unfold takeLastSlice at hp2
  by_cases hn : n = 0
  · rw [if_pos hn] at hp2
    exact hp2
  · rw [if_neg hn] at hp2
    exact List.mem_of_mem_drop hp2

lemma topPairs_desc (sims : List Rat) (n : Nat) :
    List.Pairwise (fun a b : Rat × Nat => b.1 ≤ a.1) (topPairs sims n) := by
  have hs : List.Sorted simLe (argsortPairs sims) :=
    List.sorted_insertionSort simLe (simPairs sims)
  have hslice : List.Pairwise simLe (takeLastSlice n (argsortPairs sims)) := by
    unfold takeLastSlice
    by_cases hn : n = 0
    · rw [if_pos hn]
      exact hs
    · rw [if_neg hn]
      exact List.Pairwise.sublist
        (List.drop_sublist ((argsortPairs sims).length - n) (argsortPairs sims)) hs
  exact List.pairwise_reverse.mpr hslice

lemma sorted_last_ge :
    ∀ (l : List (Rat × Nat)), List.Pairwise simLe l →
      ∀ (hne : l ≠ []) (a : Rat × Nat), a ∈ l → a.1 ≤ (l.getLast hne).1 := by
  intro l
  induction l with
  | nil => intro _ hne; exact absurd rfl hne
  | cons x xs ih =>
      intro hp hne a ha
      cases xs with
      | nil =>
          have : a = x := by simpa using ha
          simp [this, List.getLast]
      | cons y ys =>
          have hxs : (y :: ys) ≠ [] := by simp
          rw [List.getLast_cons hxs]
          rcases List.mem_cons.mp ha with h1 | h2
          · have hx := List.rel_of_sorted_cons hp (List.getLast (y :: ys) hxs)
              (List.getLast_mem hxs)
            rw [h1]
            exact hx
          · exact ih (List.Pairwise.sublist (List.sublist_cons_self x (y :: ys)) hp)
              hxs a h2

lemma getLast_mem_drop :
    ∀ (l : List (Rat × Nat)) (k : Nat) (hne : l ≠ []),
      l.drop k ≠ [] → l.getLast hne ∈ l.drop k := by
  intro l
  induction l with
  | nil => intro k hne; exact absurd rfl hne
  | cons x xs ih =>
      intro k hne hdne
      cases k with
      | zero => simp only [List.drop_zero]; exact List.getLast_mem hne
      | succ k2 =>
          have hdrop : (x :: xs).drop (k2 + 1) = xs.drop k2 := by simp
          rw [hdrop] at hdne ⊢
          have hxs : xs ≠ [] := by
            intro hc
            rw [hc] at hdne
            simp at hdne
          rw [List.getLast_cons hxs]
          exact ih k2 hxs hdne

/-! ## Claim C7 -/

/-- C7, amended: the sparse backend returns entries with keys text,
metadata, similarity and id, ranked non-increasing by similarity; the
dense backend returns entries with keys text, metadata, distance and id,
copying the backend distances in the backend order (ascending distance,
most similar first), so the two backends do not share a score field or a
common ranking direction on their numeric field. -/
theorem c7_contract :
    (∀ (db : SimpleVectorDatabase) (sims : List Rat) (n : Nat),
      List.Pairwise (fun r1 r2 : SimpleResult => r2.similarity ≤ r1.similarity)
        (db.search_similar sims n)) ∧
    (∀ (db : SimpleVectorDatabase) (sims : List Rat) (n : Nat),
      ∀ r ∈ db.search_similar sims n,
        r.toDict.map Prod.fst = ["text", "metadata", "similarity", "id"]) ∧
    (∀ resp : QueryResp,
      ((VectorDatabase.search_similar resp).map DenseResult.distance =
        (List.range resp.documents.length).map fun i => resp.distances.getD i 0) ∧
      ∀ r ∈ VectorDatabase.search_similar resp,
        r.toDict.map Prod.fst = ["text", "metadata", "distance", "id"]) := by
  refine ⟨?_, ?_, ?_⟩
  · intro db sims n
    rw [SimpleVectorDatabase.search_similar]
    by_cases hguard : db.is_fitted = false ∨ db.embeddings = none
    · rw [if_pos hguard]
      exact List.Pairwise.nil
    · rw [if_neg hguard]
      apply List.pairwise_filterMap.mpr
      apply List.Pairwise.imp_of_mem ?_ (topPairs_desc sims n)
      intro a b ha hb hab r hr r2 hr2
      by_cases hpa : 0 < sims.getD a.2 0
      · rw [if_pos hpa] at hr
        by_cases hpb : 0 < sims.getD b.2 0
        · rw [if_pos hpb] at hr2
          have hra := Option.some.inj hr
          have hrb := Option.some.inj hr2
          rw [← hra, ← hrb]
          have ha2 := (argsort_spec sims a (topPairs_subset sims n a ha)).1
          have hb2 := (argsort_spec sims b (topPairs_subset sims n b hb)).1
          show sims.getD b.2 0 ≤ sims.getD a.2 0
          rw [← ha2, ← hb2]
          exact hab
        · rw [if_neg hpb] at hr2
          exact absurd hr2 (by simp)
      · rw [if_neg hpa] at hr
        exact absurd hr (by simp)
  · intro db sims n r _
    rfl
  · intro resp
    constructor
    · rw [VectorDatabase.search_similar, List.map_map]
      rfl
    · intro r _
      rfl

/-- C7, counterexample to the claim as stated: a concrete sparse search
whose entries carry a similarity key and no score key, and a concrete
dense response whose copied distance sequence is strictly increasing, so
the dense list is not ranked non-increasing by its numeric field. -/
theorem c7_counterexample :
    ((dbTwo.search_similar [1, 2] 2).map fun r => r.toDict.map Prod.fst) =
      [["text", "metadata", "similarity", "id"],
       ["text", "metadata", "similarity", "id"]] ∧
    ¬ "score" ∈ ["text", "metadata", "similarity", "id"] ∧
    (VectorDatabase.search_similar respTwo).map DenseResult.distance = [1, 2] ∧
    ¬ List.Pairwise (fun r1 r2 : DenseResult => r2.distance ≤ r1.distance)
        (VectorDatabase.search_similar respTwo) :=
  ⟨by decide, by decide, by decide, by decide⟩

/-- C7, witness: the amended theorem applied to the concrete sparse search
and the concrete dense response. -/
theorem c7_witness :
    List.Pairwise (fun r1 r2 : SimpleResult => r2.similarity ≤ r1.similarity)
      (dbTwo.search_similar [1, 2] 2) ∧
    ({ text := "два", metadata := metaA, similarity := 2, id := "doc_1" } :
        SimpleResult).toDict.map Prod.fst =
      ["text", "metadata", "similarity", "id"] ∧
    (VectorDatabase.search_similar respTwo).map DenseResult.distance =
      (List.range respTwo.documents.length).map fun i => respTwo.distances.getD i 0 :=
  ⟨c7_contract.1 dbTwo [1, 2] 2,
   c7_contract.2.1 dbTwo [1, 2] 2
     { text := "два", metadata := metaA, similarity := 2, id := "doc_1" } (by decide),
   (c7_contract.2.2 respTwo).1⟩

/-! ## Claim C4 -/

/-- C4: when dense-backend construction or population raises, lifespan
selects the sparse backend, and a query matching at least one stored
record (strictly positive similarity somewhere) still yields a non-empty
search result through the same search_similar contract. -/
theorem c4_fallback :
    ∀ (err : String) (sparse : SimpleVectorDatabase) (sims : List Rat) (n : Nat),
      lifespan (Except.error err) sparse = BackendChoice.tfidf sparse ∧
      (sparse.is_fitted = true → sparse.embeddings = some () → 1 ≤ n →
        (∃ i, i < sims.length ∧ 0 < sims.getD i 0) →
        ¬ sparse.search_similar sims n = []) := by
  intro err sparse sims n
  refine ⟨rfl, ?_⟩
  rintro hfit hemb hn ⟨i, hi, hpos⟩
  have hguard : ¬ (sparse.is_fitted = false ∨ sparse.embeddings = none) := by
    rintro (h | h)
    · rw [hfit] at h
      simp at h
    · rw [hemb] at h
      simp at h
  have hsims : sims ≠ [] := by
    intro hc
    rw [hc] at hi
    simp at hi
  have hlen : (argsortPairs sims).length = sims.length := by
    simp [argsortPairs, List.length_insertionSort, simPairs]
  have hAne : argsortPairs sims ≠ [] := by
    apply List.ne_nil_of_length_pos
    rw [hlen]
    exact List.length_pos.mpr hsims
  have hm_mem_arg : (argsortPairs sims).getLast hAne ∈ argsortPairs sims :=
    List.getLast_mem hAne
  have hm_spec := argsort_spec sims _ hm_mem_arg
  have hm_top : (argsortPairs sims).getLast hAne ∈ topPairs sims n := by
    rw [topPairs, List.mem_reverse]
    unfold takeLastSlice
    by_cases hn0 : n = 0
    · rw [if_pos hn0]
      exact hm_mem_arg
    · rw [if_neg hn0]
      apply getLast_mem_drop
      apply List.ne_nil_of_length_pos
      rw [List.length_drop, hlen]
      have hpos2 : 0 < sims.length := List.length_pos.mpr hsims
      omega
  have hip : i < (simPairs sims).length := by
    simpa [simPairs] using hi
  have hp0 : (sims.getD i 0, i) ∈ simPairs sims := by
    apply List.mem_iff_getElem.mpr
    refine ⟨i, hip, ?_⟩
    have hval : (simPairs sims)[i] = (sims[i], i) := by simp [simPairs]
    rw [hval, List.getD_eq_getElem sims 0 hi]
  have hp0arg : (sims.getD i 0, i) ∈ argsortPairs sims :=
    ((List.perm_insertionSort simLe (simPairs sims)).mem_iff).mpr hp0
  have hmax : (sims.getD i 0, i).1 ≤ ((argsortPairs sims).getLast hAne).1 :=
    sorted_last_ge (argsortPairs sims)
      (List.sorted_insertionSort simLe (simPairs sims)) hAne _ hp0arg
  have hmpos : 0 < sims.getD ((argsortPairs sims).getLast hAne).2 0 := by
    rw [← hm_spec.1]
    exact lt_of_lt_of_le hpos hmax
  have hr : ∃ r : SimpleResult, r ∈ sparse.search_similar sims n := by
    rw [SimpleVectorDatabase.search_similar, if_neg hguard]
    exact ⟨_, List.mem_filterMap.mpr
      ⟨(argsortPairs sims).getLast hAne, hm_top, by rw [if_pos hmpos]⟩⟩
  obtain ⟨r, hrmem⟩ := hr
  exact List.ne_nil_of_mem hrmem

/-- C4, witness: dense construction fails with a concrete error and the
sparse fallback still returns results for a matching concrete query. -/
theorem c4_witness :
    lifespan (Except.error "boom") dbTwo = BackendChoice.tfidf dbTwo ∧
    ¬ dbTwo.search_similar [1, 2] 2 = [] :=
  ⟨(c4_fallback "boom" dbTwo [1, 2] 2).1,
   (c4_fallback "boom" dbTwo [1, 2] 2).2 rfl rfl (by decide)
     ⟨1, by decide, by decide⟩⟩

/-! ## Claim C5 -/

lemma trace_append_pair (tr : List Ev) (a : String)
    (h : ∀ (j : Nat) (n : String), tr[j]? = some (Ev.record n) →
      ∃ i, i < j ∧ tr[i]? = some (Ev.persist n)) :
    ∀ (j : Nat) (n : String),
      (tr ++ [Ev.persist a, Ev.record a])[j]? = some (Ev.record n) →
      ∃ i, i < j ∧ (tr ++ [Ev.persist a, Ev.record a])[i]? = some (Ev.persist n) := by
  intro j n hj
  by_cases hlt : j < tr.length
  · rw [List.getElem?_append, if_pos hlt] at hj
    obtain ⟨i, hij, hi⟩ := h j n hj
    refine ⟨i, hij, ?_⟩
    rw [List.getElem?_append, if_pos (lt_trans hij hlt)]
    exact hi
  · rw [List.getElem?_append_right (le_of_not_lt hlt)] at hj
    rcases hsub : j - tr.length with _ | k
    · rw [hsub] at hj
      simp at hj
    · rcases k with _ | k2
      · rw [hsub] at hj
        simp at hj
        refine ⟨tr.length, by omega, ?_⟩
        rw [List.getElem?_append_right (le_refl tr.length)]
        simp [hj]
      · rw [hsub] at hj
        simp at hj

lemma loader_fold_trace :
    ∀ (js : JsonDir)
      (acc : LoadStats × List String × List (String × Metadata × String) × List Ev),
      (∀ (j : Nat) (n : String), acc.2.2.2[j]? = some (Ev.record n) →
        ∃ i, i < j ∧ acc.2.2.2[i]? = some (Ev.persist n)) →
      ∀ (j : Nat) (n : String),
        (js.foldl loadStep acc).2.2.2[j]? = some (Ev.record n) →
        ∃ i, i < j ∧ (js.foldl loadStep acc).2.2.2[i]? = some (Ev.persist n) := by
  intro js
  induction js with
  | nil => intro acc h; exact h
  | cons f t ih =>
      intro acc h
      simp only [List.foldl_cons]
      apply ih
      by_cases hmem : f.1 ∈ acc.2.1
      · simpa [loadStep, hmem] using h
      · have hstep : (loadStep acc f).2.2.2 =
            acc.2.2.2 ++ [Ev.persist f.1, Ev.record f.1] := by
          simp [loadStep, hmem]
        rw [hstep]
        exact trace_append_pair acc.2.2.2 f.1 h

/-- C5: in the event trace of the loader every manifest record event for a
source id is strictly preceded by the Index Store persist event for the
same id; the persistence-then-record order is never reversed. -/
theorem c5_persist_before_record :
    ∀ (manifest : List String) (store : List (String × Metadata × String))
      (js : JsonDir) (j : Nat) (n : String),
      (load_from_json_files manifest store js).2.2.2[j]? = some (Ev.record n) →
      ∃ i, i < j ∧
        (load_from_json_files manifest store js).2.2.2[i]? = some (Ev.persist n) := by
  intro manifest store js j n hj
  exact loader_fold_trace js ({ new_files := 0, skipped := 0 }, manifest, store, [])
    (by intro j2 n2 hj2; simp at hj2) j n hj

/-- C5, witness: a concrete one-file load whose trace is the persist event
followed by the record event, with the ordering obtained from the theorem. -/
theorem c5_witness :
    (load_from_json_files [] [] [("a.json", 0, docA)]).2.2.2 =
      [Ev.persist "a.json", Ev.record "a.json"] ∧
    ∃ i, i < 1 ∧
      (load_from_json_files [] [] [("a.json", 0, docA)]).2.2.2[i]? =
        some (Ev.persist "a.json") :=
  ⟨by decide,
   c5_persist_before_record [] [] [("a.json", 0, docA)] 1 "a.json" (by decide)⟩

/-! ## Claim C1 -/

lemma skipTest_of_lookup (js : JsonDir) (it : PdfItem) (m : Nat) (d : Doc)
    (h1 : lookupJson js (jsonNameOf it.name) = some (m, d)) (h2 : it.mtime ≤ m) :
    skipTest false js it = true := by
  simp [skipTest, h1, h2]

lemma fold_allskip (now : Nat) :
    ∀ (items : List PdfItem) (js : JsonDir) (p s e : Nat) (fs : List String),
      (∀ it ∈ items, skipTest false js it = true) →
      items.foldl (processStep false now) (p, s, e, fs, js) =
        (p, s + items.length, e, fs, js) := by
  intro items
  induction items with
  | nil => intro js p s e fs _; simp
  | cons h t ih =>
      intro js p s e fs hall
      have hsk : skipTest false js h = true := hall h (by simp)
      have hstep : processStep false now (p, s, e, fs, js) h = (p, s + 1, e, fs, js) := by
        simp [processStep, hsk]
      simp only [List.foldl_cons, hstep, List.length_cons]
      rw [ih js p (s + 1) e fs fun it hit => hall it (List.mem_cons_of_mem h hit)]
      have harith : s + 1 + t.length = s + (t.length + 1) := by omega
      rw [harith]

lemma fold_post (now : Nat) :
    ∀ (items : List PdfItem) (js : JsonDir) (p s e : Nat) (fs : List String),
      ((items.map fun it => jsonNameOf it.name).Nodup) →
      (∀ it ∈ items, it.mtime ≤ now) →
      (∀ it ∈ items, outcomeOk it.outcome = true) →
      (∀ it ∈ items,
        skipTest false
          (items.foldl (processStep false now) (p, s, e, fs, js)).2.2.2.2 it = true) ∧
      (∀ nm, ¬ nm ∈ items.map (fun it => jsonNameOf it.name) →
        lookupJson ((items.foldl (processStep false now) (p, s, e, fs, js)).2.2.2.2) nm =
          lookupJson js nm) := by
  intro items
  induction items with
  | nil =>
      intro js p s e fs _ _ _
      exact ⟨by intro it hit; simp at hit, by intro nm _; rfl⟩
  | cons h t ih =>
      intro js p s e fs hnd hmt hok
      have hnd2 := List.nodup_cons.mp hnd
      have hkey : ¬ jsonNameOf h.name ∈ t.map fun it => jsonNameOf it.name := by
        simpa using hnd2.1
      have hmt2 : ∀ it ∈ t, it.mtime ≤ now := fun it hit => hmt it (by simp [hit])
      have hok2 : ∀ it ∈ t, outcomeOk it.outcome = true := fun it hit =>
        hok it (by simp [hit])
      by_cases hsk : skipTest false js h = true
      · have hstep : processStep false now (p, s, e, fs, js) h = (p, s + 1, e, fs, js) := by
          simp [processStep, hsk]
        have hrec := ih js p (s + 1) e fs hnd2.2 hmt2 hok2
        simp only [List.foldl_cons, hstep]
        constructor
        · intro it hit
          rcases List.mem_cons.mp hit with h1 | h2
          · rw [h1]
            have hpres := hrec.2 (jsonNameOf h.name) hkey
            rw [skipTest_congr false h hpres]
            exact hsk
          · exact hrec.1 it h2
        · intro nm hnm
          have hnm2 : ¬ nm ∈ t.map fun it => jsonNameOf it.name := by
            intro hc
            exact hnm (by simp [hc])
          exact hrec.2 nm hnm2
      · obtain ⟨d, hout⟩ : ∃ d, h.outcome = ProcOutcome.ok d := by
          cases hcase : h.outcome with
          | ok d2 => exact ⟨d2, rfl⟩
          | empty =>
              have := hok h (by simp)
              rw [hcase] at this
              simp [outcomeOk] at this
          | exn m2 =>
              have := hok h (by simp)
              rw [hcase] at this
              simp [outcomeOk] at this
        have hstep : processStep false now (p, s, e, fs, js) h =
            (p + 1, s, e, fs ++ [jsonNameOf h.name],
             writeJson js (jsonNameOf h.name) now d) := by
          simp [processStep, hsk, hout]
        have hrec := ih (writeJson js (jsonNameOf h.name) now d) (p + 1) s e
          (fs ++ [jsonNameOf h.name]) hnd2.2 hmt2 hok2
        simp only [List.foldl_cons, hstep]
        constructor
        · intro it hit
          rcases List.mem_cons.mp hit with h1 | h2
          · rw [h1]
            have hpres := hrec.2 (jsonNameOf h.name) hkey
            have hself := lookupJson_writeJson_self (jsonNameOf h.name) now d js
            rw [hself] at hpres
            exact skipTest_of_lookup _ h now d hpres (hmt h (by simp))
          · exact hrec.1 it h2
        · intro nm hnm
          have hnmh : ¬ nm = jsonNameOf h.name := by
            intro hc
            exact hnm (by simp [hc])
          have hnm2 : ¬ nm ∈ t.map fun it => jsonNameOf it.name := by
            intro hc
            exact hnm (by simp [hc])
          rw [hrec.2 nm hnm2]
          exact lookupJson_writeJson_ne (jsonNameOf h.name) nm now d hnmh js

lemma loader_manifest_mono :
    ∀ (js : JsonDir)
      (acc : LoadStats × List String × List (String × Metadata × String) × List Ev),
      (∀ nm ∈ acc.2.1, nm ∈ (js.foldl loadStep acc).2.1) ∧
      (∀ f ∈ js, f.1 ∈ (js.foldl loadStep acc).2.1) := by
  intro js
  induction js with
  | nil =>
      intro acc
      exact ⟨fun nm h => h, by intro f hf; simp at hf⟩
  | cons f t ih =>
      intro acc
      have hstep_mono : ∀ nm ∈ acc.2.1, nm ∈ (loadStep acc f).2.1 := by
        intro nm hnm
        by_cases hmem : f.1 ∈ acc.2.1
        · simpa [loadStep, hmem] using hnm
        · simp [loadStep, hmem]
          exact Or.inl hnm
      have hstep_self : f.1 ∈ (loadStep acc f).2.1 := by
        by_cases hmem : f.1 ∈ acc.2.1
        · simp only [loadStep, hmem, if_true]
        · simp [loadStep, hmem]
      have hrec := ih (loadStep acc f)
      refine ⟨?_, ?_⟩
      · intro nm hnm
        exact hrec.1 nm (hstep_mono nm hnm)
      · intro g hg
        rcases List.mem_cons.mp hg with h1 | h2
        · rw [h1]
          exact hrec.1 f.1 hstep_self
        · exact hrec.2 g h2

lemma loader_allskip :
    ∀ (js : JsonDir)
      (acc : LoadStats × List String × List (String × Metadata × String) × List Ev),
      (∀ f ∈ js, f.1 ∈ acc.2.1) →
      js.foldl loadStep acc =
        ({ new_files := acc.1.new_files, skipped := acc.1.skipped + js.length },
         acc.2.1, acc.2.2.1, acc.2.2.2) := by
  intro js
  induction js with
  | nil => intro acc _; simp
  | cons f t ih =>
      intro acc hall
      obtain ⟨stats, man, sto, ev⟩ := acc
      have hmem : f.1 ∈ man := hall f (by simp)
      have hstep : loadStep (stats, man, sto, ev) f =
          ({ new_files := stats.new_files, skipped := stats.skipped + 1 },
           man, sto, ev) := by
        simp [loadStep, hmem]
      simp only [List.foldl_cons, hstep, List.length_cons]
      rw [ih ({ new_files := stats.new_files, skipped := stats.skipped + 1 },
        man, sto, ev) (fun g hg => hall g (List.mem_cons_of_mem f hg))]
      have harith : stats.skipped + 1 + t.length = stats.skipped + (t.length + 1) := by
        omega
      simp [harith]

lemma process_allskip (now : Nat) (items : List PdfItem) (js : JsonDir)
    (h : ∀ it ∈ items, skipTest false js it = true) :
    process_all_pdfs false now items js =
      ({ processed := 0, skipped := items.length, errors := 0
         total := items.length, processed_files := [] }, js) := by
  simp [process_all_pdfs, fold_allskip now items js 0 0 0 [] h]

lemma load_allskip (m : List String) (s : List (String × Metadata × String))
    (js : JsonDir) (h : ∀ f ∈ js, f.1 ∈ m) :
    load_from_json_files m s js =
      ({ new_files := 0, skipped := js.length }, m, s, []) := by
  rw [load_from_json_files, loader_allskip js ({ new_files := 0, skipped := 0 }, m, s, []) h]
  simp

lemma load_manifest_super (m : List String) (s : List (String × Metadata × String))
    (js : JsonDir) : ∀ f ∈ js, f.1 ∈ (load_from_json_files m s js).2.1 :=
  fun f hf =>
    (loader_manifest_mono js ({ new_files := 0, skipped := 0 }, m, s, [])).2 f hf

/-- C1: reindexing a fully ingestible corpus twice with no source changes
is idempotent.  After a first run in which every file processes
successfully, the second run reports every file skipped (skipped equals
total) and leaves the Index Store records, the manifest and the JSON
directory exactly as the first run left them: no records are added,
removed or duplicated. -/
theorem c1_reindex_idempotent :
    ∀ (items : List PdfItem) (st : RState) (now1 now2 : Nat),
      ((items.map fun it => jsonNameOf it.name).Nodup) →
      (∀ it ∈ items, it.mtime ≤ now1) →
      (∀ it ∈ items, outcomeOk it.outcome = true) →
      ((reindexRun false now2 items (reindexRun false now1 items st).2.2).1.skipped =
        (reindexRun false now2 items (reindexRun false now1 items st).2.2).1.total) ∧
      ((reindexRun false now2 items (reindexRun false now1 items st).2.2).2.2.store =
        (reindexRun false now1 items st).2.2.store) ∧
      ((reindexRun false now2 items (reindexRun false now1 items st).2.2).2.2 =
        (reindexRun false now1 items st).2.2) := by
  intro items st now1 now2 hnd hmt hok
  have hskips : ∀ it ∈ items,
      skipTest false ((process_all_pdfs false now1 items st.jsons).2) it = true :=
    (fold_post now1 items st.jsons 0 0 0 [] hnd hmt hok).1
  have h1 := process_allskip now2 items
    ((process_all_pdfs false now1 items st.jsons).2) hskips
  have h2 := load_allskip
    ((load_from_json_files st.manifest st.store
        ((process_all_pdfs false now1 items st.jsons).2)).2.1)
    ((load_from_json_files st.manifest st.store
        ((process_all_pdfs false now1 items st.jsons).2)).2.2.1)
    ((process_all_pdfs false now1 items st.jsons).2)
    (load_manifest_super st.manifest st.store
      ((process_all_pdfs false now1 items st.jsons).2))
  refine ⟨?_, ?_, ?_⟩
  · simp only [reindexRun, h1]
  · simp only [reindexRun, h1, h2]
  · simp only [reindexRun, h1, h2]

/-- C1, witness: the theorem applied to a concrete one-file corpus
starting from an empty state; the second run skips the file and the
durable state is unchanged. -/
theorem c1_witness :
    ((reindexRun false 100 [itemA]
        (reindexRun false 7 [itemA] { jsons := [], manifest := [], store := [] }).2.2).1.skipped =
      (reindexRun false 100 [itemA]
        (reindexRun false 7 [itemA] { jsons := [], manifest := [], store := [] }).2.2).1.total) ∧
    ((reindexRun false 100 [itemA]
        (reindexRun false 7 [itemA] { jsons := [], manifest := [], store := [] }).2.2).2.2 =
      (reindexRun false 7 [itemA] { jsons := [], manifest := [], store := [] }).2.2) :=
  ⟨(c1_reindex_idempotent [itemA] { jsons := [], manifest := [], store := [] } 7 100
      (by decide) (by decide) (by decide)).1,
   (c1_reindex_idempotent [itemA] { jsons := [], manifest := [], store := [] } 7 100
      (by decide) (by decide) (by decide)).2.2⟩
